import Mathlib

/-!
Verification of the implicit-time-column subsystem of postgresql-mod.

The catalog `pg_implicit_columns` (src/backend/catalog/pg_implicit_columns.c
and its header) is embedded as a list of rows; the functions that scan,
insert into and delete from it are translated directly from the C source.
Oids, type oids and attribute numbers are modelled as `Nat` (`InvalidOid`
and `InvalidAttrNumber` are both 0 in the source); timestamps are `Int`
microsecond counts as in the C `Timestamp` typedef.
-/

namespace ImplicitColumns

/-- `IMPLICIT_TIME_COLUMN_NAME` from pg_implicit_columns.c. -/
def IMPLICIT_TIME_COLUMN_NAME : String := "time"

/-- Oid of `timestamp without time zone` (pg_type.dat). -/
def TIMESTAMPOID : Nat := 1114

/-- Oid of `timestamp with time zone` (pg_type.dat). -/
def TIMESTAMPTZOID : Nat := 1184

/-- `InvalidAttrNumber` (access/attnum.h). -/
def InvalidAttrNumber : Nat := 0

/-- `InvalidOid`: `OidIsValid(oid)` is `oid ≠ 0`. -/
def InvalidOid : Nat := 0

/-- `USECS_PER_SEC` (datatype/timestamp.h). -/
def USECS_PER_SEC : Int := 1000000

/-- One row of the `pg_implicit_columns` catalog:
`FormData_pg_implicit_columns` from pg_implicit_columns.h. -/
structure ImplicitColumnRow where
  ic_relid : Nat
  ic_attname : String
  ic_attnum : Nat
  ic_atttypid : Nat
  ic_visible : Bool
deriving DecidableEq, Repr

/-- The `pg_implicit_columns` catalog relation: its rows. -/
abbrev Catalog := List ImplicitColumnRow

/-- The part of a `Relation` descriptor the subsystem reads:
`RelationGetRelid` and `RelationGetNumberOfAttributes` (the declared
attribute count `rd_rel->relnatts`).  A `Rel` value models a non-NULL
relation pointer, so `RelationIsValid` holds. -/
structure Rel where
  oid : Nat
  natts : Nat
deriving DecidableEq, Repr

/-- `table_has_implicit_time` (pg_implicit_columns.c): invalid oid returns
false; otherwise scan the rows with `ic_relid = table_oid` for one whose
`ic_attname` is the implicit time column name. -/
def table_has_implicit_time (cat : Catalog) (table_oid : Nat) : Bool :=
  if table_oid = InvalidOid then false
  else cat.any (fun r => r.ic_relid == table_oid &&
                         r.ic_attname == IMPLICIT_TIME_COLUMN_NAME)

/-- `get_implicit_time_attnum` (pg_implicit_columns.c): invalid oid returns
`InvalidAttrNumber`; otherwise the attnum of the first row matching
`(table_oid, "time")`, or `InvalidAttrNumber` when none matches. -/
def get_implicit_time_attnum (cat : Catalog) (table_oid : Nat) : Nat :=
  if table_oid = InvalidOid then InvalidAttrNumber
  else
    match cat.find? (fun r => r.ic_relid == table_oid &&
                              r.ic_attname == IMPLICIT_TIME_COLUMN_NAME) with
    | some r => r.ic_attnum
    | none => InvalidAttrNumber

/-- `add_implicit_time_column` (pg_implicit_columns.c): if the table already
has the implicit time column the call returns without change (logged no-op);
otherwise it computes `next_attnum = RelationGetNumberOfAttributes(rel) + 1`
and inserts the row `(relid, "time", next_attnum, TIMESTAMPOID, false)`. -/
def add_implicit_time_column (cat : Catalog) (rel : Rel) : Catalog :=
  if table_has_implicit_time cat rel.oid then cat
  else cat ++ [{ ic_relid := rel.oid,
                 ic_attname := IMPLICIT_TIME_COLUMN_NAME,
                 ic_attnum := rel.natts + 1,
                 ic_atttypid := TIMESTAMPOID,
                 ic_visible := false }]

/-- Result of `remove_implicit_time_column`: the catalog afterwards, whether
a WARNING was emitted, and whether `CacheInvalidateRelcache` was signalled. -/
structure RemoveResult where
  cat : Catalog
  warned : Bool
  invalidated : Bool

/-- `remove_implicit_time_column` (pg_implicit_columns.c): if the table has
no implicit time column, WARN and return with no catalog change; otherwise
delete every row matching `(relid, "time")`, and on `found` signal cache
invalidation, else WARN. -/
def remove_implicit_time_column (cat : Catalog) (rel : Rel) : RemoveResult :=
  if !table_has_implicit_time cat rel.oid then
    { cat := cat, warned := true, invalidated := false }
  else
    let matchesRow := fun (r : ImplicitColumnRow) =>
      r.ic_relid == rel.oid && r.ic_attname == IMPLICIT_TIME_COLUMN_NAME
    let found := cat.any matchesRow
    let remaining := cat.filter (fun r => !matchesRow r)
    if found then { cat := remaining, warned := false, invalidated := true }
    else { cat := remaining, warned := true, invalidated := false }

/-- Number of implicit-time descriptors the catalog holds for a table
(the rows the unique index on `(ic_relid, ic_attname)` ranges over for
the name `"time"`). -/
def countTimeDescriptors (cat : Catalog) (table_oid : Nat) : Nat :=
  (cat.filter (fun r => r.ic_relid == table_oid &&
                        r.ic_attname == IMPLICIT_TIME_COLUMN_NAME)).length

lemma has_iff_count_pos (cat : Catalog) (oid : Nat) (hoid : oid ≠ InvalidOid) :
    table_has_implicit_time cat oid = true ↔ 0 < countTimeDescriptors cat oid := by
  unfold table_has_implicit_time countTimeDescriptors
  rw [if_neg hoid, List.any_eq_true]
  constructor
  · rintro ⟨r, hr, hp⟩
    have hm : r ∈ cat.filter (fun r => r.ic_relid == oid &&
        r.ic_attname == IMPLICIT_TIME_COLUMN_NAME) := List.mem_filter.mpr ⟨hr, hp⟩
    exact List.length_pos.mpr (List.ne_nil_of_mem hm)
  · intro hlen
    obtain ⟨r, hr⟩ := List.exists_mem_of_ne_nil _ (List.length_pos.mp hlen)
    have hm := List.mem_filter.mp hr
    exact ⟨r, hm.1, hm.2⟩

lemma add_no_op_of_has (cat : Catalog) (rel : Rel)
    (h : table_has_implicit_time cat rel.oid = true) :
    add_implicit_time_column cat rel = cat := by
  unfold add_implicit_time_column
  simp [h]

lemma count_add_of_not_has (cat : Catalog) (rel : Rel)
    (h : table_has_implicit_time cat rel.oid = false) :
    countTimeDescriptors (add_implicit_time_column cat rel) rel.oid =
      countTimeDescriptors cat rel.oid + 1 := by
  unfold add_implicit_time_column countTimeDescriptors
  simp [h, List.filter_append, IMPLICIT_TIME_COLUMN_NAME]

lemma count_zero_of_not_has (cat : Catalog) (oid : Nat) (hoid : oid ≠ InvalidOid)
    (h : table_has_implicit_time cat oid = false) :
    countTimeDescriptors cat oid = 0 := by
  by_contra hne
  have := (has_iff_count_pos cat oid hoid).mpr (Nat.pos_of_ne_zero hne)
  rw [h] at this
  exact Bool.false_ne_true this

/-- C1: for every table whose relation descriptor reports `natts` declared
attributes and which does not yet have the implicit time column,
`add_implicit_time_column` records the new descriptor with attribute number
`natts + 1`; in particular a table with 0 declared columns gets attribute
number 1. -/
theorem add_assigns_declared_count_plus_one (cat : Catalog) (rel : Rel)
    (hoid : rel.oid ≠ InvalidOid)
    (h : table_has_implicit_time cat rel.oid = false) :
    get_implicit_time_attnum (add_implicit_time_column cat rel) rel.oid =
      rel.natts + 1 ∧
    (rel.natts = 0 →
      get_implicit_time_attnum (add_implicit_time_column cat rel) rel.oid = 1) := by
  have hmain :
      get_implicit_time_attnum (add_implicit_time_column cat rel) rel.oid =
        rel.natts + 1 := by
    unfold get_implicit_time_attnum add_implicit_time_column
    simp only [h, if_false, Bool.false_eq_true]
    rw [if_neg hoid]
    rw [List.find?_append]
    have hnone : cat.find? (fun r => r.ic_relid == rel.oid &&
        r.ic_attname == IMPLICIT_TIME_COLUMN_NAME) = none := by
      rw [List.find?_eq_none]
      intro r hr
      unfold table_has_implicit_time at h
      rw [if_neg hoid] at h
      exact List.any_eq_false.mp h r hr
    rw [hnone]
    simp
  exact ⟨hmain, fun h0 => by rw [hmain, h0]⟩

/-- Witness for `add_assigns_declared_count_plus_one` at a concrete table
with oid 10 and zero declared columns. -/
theorem add_assigns_declared_count_plus_one_witness :
    get_implicit_time_attnum
      (add_implicit_time_column [] { oid := 10, natts := 0 }) 10 = 1 :=
  (add_assigns_declared_count_plus_one [] { oid := 10, natts := 0 }
    (by decide) (by decide)).2 rfl

/-- C2: `add_implicit_time_column` is idempotent: when a descriptor already
exists the call leaves the catalog unchanged (a logged no-op, not an error),
and starting from a catalog respecting the unique index (at most one
implicit-time descriptor for the table), two successive calls leave exactly
one descriptor. -/
theorem add_implicit_time_column_idempotent (cat : Catalog) (rel : Rel)
    (hoid : rel.oid ≠ InvalidOid)
    (huniq : countTimeDescriptors cat rel.oid ≤ 1) :
    (table_has_implicit_time cat rel.oid = true →
      add_implicit_time_column cat rel = cat) ∧
    countTimeDescriptors
      (add_implicit_time_column (add_implicit_time_column cat rel) rel)
      rel.oid = 1 := by
  constructor
  · intro h
    exact add_no_op_of_has cat rel h
  · by_cases h : table_has_implicit_time cat rel.oid = true
    · have heq : add_implicit_time_column cat rel = cat := add_no_op_of_has cat rel h
      rw [heq, heq]
      have hpos := (has_iff_count_pos cat rel.oid hoid).mp h
      omega
    · have hfalse : table_has_implicit_time cat rel.oid = false :=
        Bool.eq_false_iff.mpr h
      have hc0 := count_zero_of_not_has cat rel.oid hoid hfalse
      have hc1 := count_add_of_not_has cat rel hfalse
      have hhas2 : table_has_implicit_time
          (add_implicit_time_column cat rel) rel.oid = true := by
        apply (has_iff_count_pos _ rel.oid hoid).mpr
        omega
      have heq2 : add_implicit_time_column
          (add_implicit_time_column cat rel) rel =
          add_implicit_time_column cat rel :=
        add_no_op_of_has _ rel hhas2
      rw [heq2, hc1, hc0]

/-- Witness for `add_implicit_time_column_idempotent` at a concrete table. -/
theorem add_implicit_time_column_idempotent_witness :
    countTimeDescriptors
      (add_implicit_time_column
        (add_implicit_time_column [] { oid := 7, natts := 2 })
        { oid := 7, natts := 2 }) 7 = 1 :=
  (add_implicit_time_column_idempotent [] { oid := 7, natts := 2 }
    (by decide) (by decide)).2

lemma remove_no_op_of_not_has (cat : Catalog) (rel : Rel)
    (h : table_has_implicit_time cat rel.oid = false) :
    remove_implicit_time_column cat rel =
      { cat := cat, warned := true, invalidated := false } := by
  unfold remove_implicit_time_column
  simp [h]

lemma has_false_of_count_zero (cat : Catalog) (oid : Nat)
    (hoid : oid ≠ InvalidOid) (h : countTimeDescriptors cat oid = 0) :
    table_has_implicit_time cat oid = false := by
  cases hb : table_has_implicit_time cat oid with
  | false => rfl
  | true =>
    have := (has_iff_count_pos cat oid hoid).mp hb
    omega

lemma count_remove_zero (cat : Catalog) (rel : Rel)
    (hoid : rel.oid ≠ InvalidOid) :
    countTimeDescriptors (remove_implicit_time_column cat rel).cat rel.oid = 0 := by
  by_cases h : table_has_implicit_time cat rel.oid = true
  · have hany : (cat.any fun r => r.ic_relid == rel.oid &&
        r.ic_attname == IMPLICIT_TIME_COLUMN_NAME) = true := by
      unfold table_has_implicit_time at h
      rwa [if_neg hoid] at h
    unfold remove_implicit_time_column
    simp only [h, Bool.not_true, Bool.false_eq_true, if_false, hany, if_true]
    unfold countTimeDescriptors
    rw [List.filter_filter]
    have hall : ∀ r ∈ cat,
        ¬ ((r.ic_relid == rel.oid && r.ic_attname == IMPLICIT_TIME_COLUMN_NAME) &&
           !(r.ic_relid == rel.oid && r.ic_attname == IMPLICIT_TIME_COLUMN_NAME)) = true := by
      intro r _
      cases r.ic_relid == rel.oid && r.ic_attname == IMPLICIT_TIME_COLUMN_NAME <;> decide
    rw [List.filter_eq_nil_iff.mpr hall]
    rfl
  · have hf : table_has_implicit_time cat rel.oid = false := Bool.eq_false_iff.mpr h
    rw [remove_no_op_of_not_has cat rel hf]
    exact count_zero_of_not_has cat rel.oid hoid hf

/-- C4: `remove_implicit_time_column` deletes every implicit-time descriptor
of the table; when the table has none it warns without changing the catalog;
hence calling remove twice leaves zero descriptors and the second call warns
(no error) and changes nothing. -/
theorem remove_implicit_time_column_spec (cat : Catalog) (rel : Rel)
    (hoid : rel.oid ≠ InvalidOid) :
    countTimeDescriptors (remove_implicit_time_column cat rel).cat rel.oid = 0 ∧
    (table_has_implicit_time cat rel.oid = false →
      (remove_implicit_time_column cat rel).cat = cat ∧
      (remove_implicit_time_column cat rel).warned = true) ∧
    (remove_implicit_time_column
        (remove_implicit_time_column cat rel).cat rel).cat =
      (remove_implicit_time_column cat rel).cat ∧
    (remove_implicit_time_column
        (remove_implicit_time_column cat rel).cat rel).warned = true := by
  have hzero := count_remove_zero cat rel hoid
  have hnohas := has_false_of_count_zero _ rel.oid hoid hzero
  have hsecond := remove_no_op_of_not_has _ rel hnohas
  refine ⟨hzero, ?_, ?_, ?_⟩
  · intro h
    rw [remove_no_op_of_not_has cat rel h]
    exact ⟨rfl, rfl⟩
  · rw [hsecond]
  · rw [hsecond]

/-- Witness for `remove_implicit_time_column_spec`: a concrete catalog
holding one implicit-time descriptor for table 7. -/
theorem remove_implicit_time_column_spec_witness :
    countTimeDescriptors
      (remove_implicit_time_column
        [{ ic_relid := 7, ic_attname := "time", ic_attnum := 3,
           ic_atttypid := TIMESTAMPOID, ic_visible := false }]
        { oid := 7, natts := 2 }).cat 7 = 0 :=
  (remove_implicit_time_column_spec
    [{ ic_relid := 7, ic_attname := "time", ic_attnum := 3,
       ic_atttypid := TIMESTAMPOID, ic_visible := false }]
    { oid := 7, natts := 2 } (by decide)).1

/-- C3 counterexample: at a concrete table (oid 10, two declared columns,
empty catalog) the descriptor inserted by `add_implicit_time_column` does
not carry the time-with-zone type `TIMESTAMPTZOID`: the source inserts
`TIMESTAMPOID` (timestamp without time zone). -/
theorem add_descriptor_type_not_timestamptz :
    ¬ ((add_implicit_time_column [] { oid := 10, natts := 2 }).all
        (fun r => r.ic_atttypid == TIMESTAMPTZOID && r.ic_visible == false) = true) := by
  decide

/-- C3 amended: when `add_implicit_time_column` inserts a new descriptor,
the descriptor's type is `TIMESTAMPOID` (timestamp WITHOUT time zone, not
the with-zone type) and its visible flag is false. -/
theorem add_descriptor_type_and_visibility (cat : Catalog) (rel : Rel)
    (h : table_has_implicit_time cat rel.oid = false) :
    ∃ newRow : ImplicitColumnRow,
      add_implicit_time_column cat rel = cat ++ [newRow] ∧
      newRow.ic_atttypid = TIMESTAMPOID ∧
      newRow.ic_atttypid ≠ TIMESTAMPTZOID ∧
      newRow.ic_visible = false := by
  refine ⟨{ ic_relid := rel.oid, ic_attname := IMPLICIT_TIME_COLUMN_NAME,
            ic_attnum := rel.natts + 1, ic_atttypid := TIMESTAMPOID,
            ic_visible := false }, ?_, rfl, ?_, rfl⟩
  · unfold add_implicit_time_column
    simp [h]
  · show TIMESTAMPOID ≠ TIMESTAMPTZOID
    decide

/-- Witness for `add_descriptor_type_and_visibility` at a concrete table. -/
theorem add_descriptor_type_and_visibility_witness :
    ∃ newRow : ImplicitColumnRow,
      add_implicit_time_column [] { oid := 10, natts := 2 } = [] ++ [newRow] ∧
      newRow.ic_atttypid = TIMESTAMPOID ∧
      newRow.ic_atttypid ≠ TIMESTAMPTZOID ∧
      newRow.ic_visible = false :=
  add_descriptor_type_and_visibility [] { oid := 10, natts := 2 } (by decide)

/-- `get_current_timestamp` (pg_implicit_columns.c): the C function reads the
transaction-consistent current time `GetCurrentTimestamp()`, converts it to a
zone-less `Timestamp` via `timestamptz_timestamp`, and then truncates with C
int64 division (truncation toward zero):
`now = (now / USECS_PER_SEC) * USECS_PER_SEC`.  The time source and the
session-timezone conversion are external; the already-converted current time
enters the model as the argument `now`. -/
def get_current_timestamp (now : Int) : Int :=
  (Int.tdiv now USECS_PER_SEC) * USECS_PER_SEC

/-- C7: for a (nonnegative, i.e. current) time value, `get_current_timestamp`
returns an exact integer multiple of `USECS_PER_SEC`, obtained by discarding
the sub-second component (the result never exceeds the input, and the
discarded part is less than one second) — truncation, not rounding. -/
theorem get_current_timestamp_truncates (now : Int) (h : 0 ≤ now) :
    USECS_PER_SEC ∣ get_current_timestamp now ∧
    get_current_timestamp now ≤ now ∧
    now - get_current_timestamp now < USECS_PER_SEC ∧
    get_current_timestamp now = now - now % USECS_PER_SEC := by
  have hpos : (0 : Int) < USECS_PER_SEC := by unfold USECS_PER_SEC; omega
  have htd : Int.tdiv now USECS_PER_SEC = now / USECS_PER_SEC :=
    Int.tdiv_eq_ediv h (le_of_lt hpos)
  have hsplit : USECS_PER_SEC * (now / USECS_PER_SEC) + now % USECS_PER_SEC = now :=
    Int.ediv_add_emod now USECS_PER_SEC
  have hmodnn : 0 ≤ now % USECS_PER_SEC := Int.emod_nonneg now (ne_of_gt hpos)
  have hmodlt : now % USECS_PER_SEC < USECS_PER_SEC := Int.emod_lt_of_pos now hpos
  have heq : get_current_timestamp now = now - now % USECS_PER_SEC := by
    unfold get_current_timestamp
    rw [htd, mul_comm]
    omega
  refine ⟨⟨now / USECS_PER_SEC, ?_⟩, ?_, ?_, heq⟩
  · unfold get_current_timestamp
    rw [htd, mul_comm]
  · omega
  · omega

/-- Witness for `get_current_timestamp_truncates` at a concrete time value
(1.5 seconds after the epoch). -/
theorem get_current_timestamp_truncates_witness :
    USECS_PER_SEC ∣ get_current_timestamp 1500000 ∧
    get_current_timestamp 1500000 ≤ 1500000 ∧
    1500000 - get_current_timestamp 1500000 < USECS_PER_SEC ∧
    get_current_timestamp 1500000 = 1500000 - 1500000 % USECS_PER_SEC :=
  get_current_timestamp_truncates 1500000 (by decide)

/-- One `pg_attribute` row of a table, as read by
`check_column_name_conflicts` (pg_implicit_compat.c). -/
structure PgAttribute where
  attname : String
  atttypid : Nat
  attisdropped : Bool
deriving DecidableEq, Repr

/-- The `pg_class` metadata of a table as read by pg_implicit_compat.c:
`relkind`, `relpersistence`, the `IsSystemClass` verdict, the declared
attribute count `relnatts`, and the table's `pg_attribute` rows. -/
structure PgClass where
  relkind : Char
  relpersistence : Char
  is_system : Bool
  relnatts : Nat
  atts : List PgAttribute
deriving DecidableEq, Repr

/-- The `pg_class` catalog: oid-keyed table metadata
(`SearchSysCache1(RELOID, oid)`). -/
abbrev ClassCatalog := List (Nat × PgClass)

def lookupClass (classes : ClassCatalog) (oid : Nat) : Option PgClass :=
  (classes.find? (fun p => p.1 == oid)).map (fun p => p.2)

/-- `RELKIND_RELATION` (pg_class.h): ordinary heap table. -/
def RELKIND_RELATION : Char := 'r'

/-- `check_column_name_conflicts` (pg_implicit_compat.c): looks the table's
attribute named `"time"` up in the syscache; if it exists, is not dropped and
its type is not `TIMESTAMPOID`, a WARNING is emitted.  The function returns
nothing in C; the model returns whether the WARNING fired. -/
def check_column_name_conflicts (c : PgClass) : Bool :=
  match c.atts.find? (fun a => a.attname == "time") with
  | some a => !a.attisdropped && !(a.atttypid == TIMESTAMPOID)
  | none => false

/-- `check_backward_compatibility` (pg_implicit_compat.c): false for an
invalid oid and for a nonexistent table (both WARN); for a non-ordinary
relkind or a system table it returns true untouched; for an ordinary user
table the temporary-table check and the name-conflict check only log, and
the verdict stays true. -/
def check_backward_compatibility (classes : ClassCatalog) (table_oid : Nat) : Bool :=
  if table_oid = InvalidOid then false
  else
    match lookupClass classes table_oid with
    | none => false
    | some c =>
      if !(c.relkind == RELKIND_RELATION) then true
      else if c.is_system then true
      else
        let _conflict_warned := check_column_name_conflicts c
        true

/-- Result of `migrate_existing_table`: the catalog state after the call
(unchanged when the statement aborts with `elog(ERROR)`, since the enclosing
transaction rolls back any write) and the outcome — `.error` models the hard
`elog(ERROR)` abort, `.ok success` the normal return. -/
structure MigrateResult where
  cat : Catalog
  outcome : Except String Bool

def migrateErrored (m : MigrateResult) : Bool :=
  match m.outcome with
  | .error _ => true
  | .ok _ => false

/-- `migrate_existing_table` (pg_implicit_compat.c): aborts with ERROR when
`check_backward_compatibility` fails; otherwise opens the table and either
adds (when absent, else WARN) or removes (when present, else WARN) the
implicit time column; every non-error path sets `success = true`. -/
def migrate_existing_table (classes : ClassCatalog) (cat : Catalog)
    (table_oid : Nat) (add_implicit_time : Bool) : MigrateResult :=
  if !check_backward_compatibility classes table_oid then
    { cat := cat, outcome := .error "incompatible with implicit columns" }
  else
    match lookupClass classes table_oid with
    | none => { cat := cat, outcome := .error "could not open table" }
    | some c =>
      let rel : Rel := { oid := table_oid, natts := c.relnatts }
      if add_implicit_time then
        if !table_has_implicit_time cat table_oid then
          { cat := add_implicit_time_column cat rel, outcome := .ok true }
        else
          { cat := cat, outcome := .ok true }
      else
        if table_has_implicit_time cat table_oid then
          { cat := (remove_implicit_time_column cat rel).cat, outcome := .ok true }
        else
          { cat := cat, outcome := .ok true }

/-- C5: when the compatibility precondition fails (invalid table oid, or no
such table), `migrate_existing_table` aborts with a hard error and performs
no catalog change: the implicit-column catalog is exactly as before, so no
descriptor was added or removed. -/
theorem migrate_aborts_without_change (classes : ClassCatalog) (cat : Catalog)
    (oid : Nat) (b : Bool)
    (h : oid = InvalidOid ∨ lookupClass classes oid = none) :
    (migrate_existing_table classes cat oid b).cat = cat ∧
    migrateErrored (migrate_existing_table classes cat oid b) = true := by
  have hcheck : check_backward_compatibility classes oid = false := by
    unfold check_backward_compatibility
    rcases h with h0 | hn
    · simp [h0]
    · by_cases h0 : oid = InvalidOid
      · simp [h0]
      · rw [if_neg h0, hn]
  unfold migrate_existing_table
  rw [hcheck]
  exact ⟨rfl, rfl⟩

/-- A concrete implicit-time descriptor row for table 5, used as starting
catalog content in the `migrate_aborts_without_change` witness. -/
def sampleRow5 : ImplicitColumnRow :=
  { ic_relid := 5, ic_attname := "time", ic_attnum := 2,
    ic_atttypid := TIMESTAMPOID, ic_visible := false }

/-- Witness for `migrate_aborts_without_change`: table 5 does not exist in
an empty class catalog. -/
theorem migrate_aborts_without_change_witness :
    (migrate_existing_table [] [sampleRow5] 5 true).cat = [sampleRow5] ∧
    migrateErrored (migrate_existing_table [] [sampleRow5] 5 true) = true :=
  migrate_aborts_without_change [] [sampleRow5] 5 true (Or.inr rfl)

/-- An ordinary user heap table whose declared column `"time"` has type oid
23 (`int4`), i.e. a name collision with a foreign type. -/
def conflictClass : PgClass :=
  { relkind := 'r', relpersistence := 'p', is_system := false, relnatts := 1,
    atts := [{ attname := "time", atttypid := 23, attisdropped := false }] }

/-- C6 counterexample: for a concrete ordinary table with a non-dropped user
column `"time"` of a different type, the name-conflict WARNING fires, yet
`check_backward_compatibility` still returns true — the table is NOT flagged
incompatible. -/
theorem name_conflict_not_flagged_incompatible :
    check_column_name_conflicts conflictClass = true ∧
    ¬ check_backward_compatibility [(5, conflictClass)] 5 = false := by
  decide

/-- C6 amended: for every ordinary, non-system heap table having a
non-dropped column named `"time"` whose type differs from `TIMESTAMPOID`,
the compatibility check emits the collision warning but still reports the
table compatible (the verdict stays true; the warning is advisory). -/
theorem name_conflict_warns_but_compatible (classes : ClassCatalog)
    (oid : Nat) (c : PgClass) (a : PgAttribute)
    (hoid : oid ≠ InvalidOid)
    (hc : lookupClass classes oid = some c)
    (hkind : c.relkind = RELKIND_RELATION)
    (hsys : c.is_system = false)
    (ha : c.atts.find? (fun a => a.attname == "time") = some a)
    (hdrop : a.attisdropped = false)
    (htyp : a.atttypid ≠ TIMESTAMPOID) :
    check_column_name_conflicts c = true ∧
    check_backward_compatibility classes oid = true := by
  constructor
  · unfold check_column_name_conflicts
    rw [ha]
    simp [hdrop, htyp]
  · unfold check_backward_compatibility
    rw [if_neg hoid, hc]
    simp [hkind, hsys]

/-- Witness for `name_conflict_warns_but_compatible` at the concrete
conflicting table. -/
theorem name_conflict_warns_but_compatible_witness :
    check_column_name_conflicts conflictClass = true ∧
    check_backward_compatibility [(5, conflictClass)] 5 = true :=
  name_conflict_warns_but_compatible [(5, conflictClass)] 5 conflictClass
    { attname := "time", atttypid := 23, attisdropped := false }
    (by decide) (by decide) (by decide) (by decide)
    (by decide) (by decide) (by decide)

/-- `ImplicitColumn` (pg_implicit_columns.h): the in-memory descriptor
element of a `TableImplicitInfo` snapshot.  The C struct also carries
`created_time`, stamped from the wall clock in `create_implicit_column`;
that field depends on an external clock and none of the claims read it, so
it is not modelled. -/
structure ImplicitColumn where
  column_name : String
  column_type : Nat
  attnum : Nat
  is_active : Bool
deriving DecidableEq, Repr

/-- `create_implicit_column` (pg_implicit_columns.c): builds the in-memory
descriptor, active by default.  The C NULL-check on the name never fires for
catalog rows (`NameStr` is never NULL). -/
def create_implicit_column (name : String) (type_oid : Nat) (attnum : Nat) :
    ImplicitColumn :=
  { column_name := name, column_type := type_oid, attnum := attnum,
    is_active := true }

/-- `TableImplicitInfo` (pg_implicit_columns.h): the derived, in-memory
snapshot of a table's implicit columns. -/
structure TableImplicitInfo where
  table_oid : Nat
  has_implicit_time : Bool
  time_attnum : Nat
  implicit_columns : List ImplicitColumn
  num_implicit_cols : Nat
deriving DecidableEq, Repr

/-- The freshly `palloc0`-initialised snapshot of `get_table_implicit_info`
before its catalog scan. -/
def emptyImplicitInfo (oid : Nat) : TableImplicitInfo :=
  { table_oid := oid, has_implicit_time := false,
    time_attnum := InvalidAttrNumber, implicit_columns := [],
    num_implicit_cols := 0 }

/-- The scan loop of `get_table_implicit_info` (pg_implicit_columns.c): for
each catalog row of the table, append the in-memory descriptor, bump the
count, and when the row is the time column set `has_implicit_time` and
`time_attnum`. -/
def scanImplicitRows : TableImplicitInfo → List ImplicitColumnRow →
    TableImplicitInfo
  | info, [] => info
  | info, r :: rest =>
    scanImplicitRows
      { info with
        implicit_columns := info.implicit_columns ++
          [create_implicit_column r.ic_attname r.ic_atttypid r.ic_attnum],
        num_implicit_cols := info.num_implicit_cols + 1,
        has_implicit_time :=
          if r.ic_attname == IMPLICIT_TIME_COLUMN_NAME then true
          else info.has_implicit_time,
        time_attnum :=
          if r.ic_attname == IMPLICIT_TIME_COLUMN_NAME then r.ic_attnum
          else info.time_attnum } rest

/-- `get_table_implicit_info` (pg_implicit_columns.c): NULL for an invalid
oid; otherwise the snapshot assembled by scanning the table's catalog
rows. -/
def get_table_implicit_info (cat : Catalog) (table_oid : Nat) :
    Option TableImplicitInfo :=
  if table_oid = InvalidOid then none
  else some (scanImplicitRows (emptyImplicitInfo table_oid)
    (cat.filter (fun r => r.ic_relid == table_oid)))

lemma scanImplicitRows_num (rows : List ImplicitColumnRow) :
    ∀ info : TableImplicitInfo,
      (scanImplicitRows info rows).num_implicit_cols =
        info.num_implicit_cols + rows.length := by
  induction rows with
  | nil => intro info; rfl
  | cons r rest ih =>
    intro info
    show (scanImplicitRows _ rest).num_implicit_cols = _
    rw [ih]
    simp
    omega

/-- C9: `get_table_implicit_info` returns NULL (not an empty snapshot) for
an invalid table oid; for every valid oid it returns a snapshot, and that
snapshot is the empty-but-valid one exactly when the table has no
descriptors in the catalog. -/
theorem get_table_implicit_info_null_vs_empty (cat : Catalog) (oid : Nat) :
    (oid = InvalidOid → get_table_implicit_info cat oid = none) ∧
    (oid ≠ InvalidOid → ∃ info, get_table_implicit_info cat oid = some info) ∧
    (oid ≠ InvalidOid →
      (get_table_implicit_info cat oid = some (emptyImplicitInfo oid) ↔
        cat.filter (fun r => r.ic_relid == oid) = [])) := by
  refine ⟨?_, ?_, ?_⟩
  · intro h
    unfold get_table_implicit_info
    rw [if_pos h]
  · intro h
    exact ⟨_, by unfold get_table_implicit_info; rw [if_neg h]⟩
  · intro h
    unfold get_table_implicit_info
    rw [if_neg h]
    constructor
    · intro hsome
      have heq := Option.some_injective _ hsome
      have hnum := scanImplicitRows_num
        (cat.filter (fun r => r.ic_relid == oid)) (emptyImplicitInfo oid)
      rw [heq] at hnum
      have : (cat.filter (fun r => r.ic_relid == oid)).length = 0 := by
        unfold emptyImplicitInfo at hnum
        simp at hnum
        omega
      exact List.eq_nil_of_length_eq_zero this
    · intro hnil
      rw [hnil]
      rfl

/-- Witness for `get_table_implicit_info_null_vs_empty` at oid 0 and at a
concrete valid table. -/
theorem get_table_implicit_info_null_vs_empty_witness :
    get_table_implicit_info [sampleRow5] 0 = none ∧
    (get_table_implicit_info [sampleRow5] 9 = some (emptyImplicitInfo 9) ↔
      List.filter (fun r => r.ic_relid == 9) [sampleRow5] = []) :=
  ⟨(get_table_implicit_info_null_vs_empty [sampleRow5] 0).1 rfl,
   ((get_table_implicit_info_null_vs_empty [sampleRow5] 9).2.2 (by decide))⟩

lemma scanImplicitRows_invariant (rows : List ImplicitColumnRow) :
    ∀ info : TableImplicitInfo,
      info.num_implicit_cols = info.implicit_columns.length →
      (info.has_implicit_time = true ↔
        ∃ c ∈ info.implicit_columns,
          c.column_name = IMPLICIT_TIME_COLUMN_NAME) →
      (info.has_implicit_time = true →
        ∃ c ∈ info.implicit_columns,
          c.column_name = IMPLICIT_TIME_COLUMN_NAME ∧
          info.time_attnum = c.attnum) →
      (info.has_implicit_time = false →
        info.time_attnum = InvalidAttrNumber) →
      ((scanImplicitRows info rows).num_implicit_cols =
          (scanImplicitRows info rows).implicit_columns.length ∧
       ((scanImplicitRows info rows).has_implicit_time = true ↔
          ∃ c ∈ (scanImplicitRows info rows).implicit_columns,
            c.column_name = IMPLICIT_TIME_COLUMN_NAME) ∧
       ((scanImplicitRows info rows).has_implicit_time = true →
          ∃ c ∈ (scanImplicitRows info rows).implicit_columns,
            c.column_name = IMPLICIT_TIME_COLUMN_NAME ∧
            (scanImplicitRows info rows).time_attnum = c.attnum) ∧
       ((scanImplicitRows info rows).has_implicit_time = false →
          (scanImplicitRows info rows).time_attnum = InvalidAttrNumber)) := by
  induction rows with
  | nil =>
    intro info h1 h2 h3 h4
    exact ⟨h1, h2, h3, h4⟩
  | cons r rest ih =>
    intro info h1 h2 h3 h4
    by_cases hname : r.ic_attname == IMPLICIT_TIME_COLUMN_NAME
    · have hnameEq : r.ic_attname = IMPLICIT_TIME_COLUMN_NAME := eq_of_beq hname
      refine ih _ ?_ ?_ ?_ ?_
      · simp [h1, hname]
      · simp only [hname, if_true]
        constructor
        · intro _
          refine ⟨create_implicit_column r.ic_attname r.ic_atttypid r.ic_attnum,
            List.mem_append_right _ (List.mem_singleton.mpr rfl), hnameEq⟩
        · intro _
          trivial
      · intro _
        simp only [hname, if_true]
        refine ⟨create_implicit_column r.ic_attname r.ic_atttypid r.ic_attnum,
          List.mem_append_right _ (List.mem_singleton.mpr rfl), hnameEq, rfl⟩
      · intro hfalse
        simp only [hname, if_true] at hfalse
        exact absurd hfalse (by decide)
    · have hnameNe : r.ic_attname ≠ IMPLICIT_TIME_COLUMN_NAME := by
        intro he
        exact hname (by rw [he]; exact beq_self_eq_true _)
      refine ih _ ?_ ?_ ?_ ?_
      · simp [h1, hname]
      · simp only [hname, Bool.false_eq_true, if_false]
        constructor
        · intro hh
          obtain ⟨c, hc, hcn⟩ := h2.mp hh
          exact ⟨c, List.mem_append_left _ hc, hcn⟩
        · rintro ⟨c, hc, hcn⟩
          rcases List.mem_append.mp hc with hin | hnew
          · exact h2.mpr ⟨c, hin, hcn⟩
          · have : c = create_implicit_column r.ic_attname r.ic_atttypid
                r.ic_attnum := List.mem_singleton.mp hnew
            rw [this] at hcn
            exact absurd hcn hnameNe
      · intro hh
        simp only [hname, Bool.false_eq_true, if_false] at hh ⊢
        obtain ⟨c, hc, hcn, hca⟩ := h3 hh
        exact ⟨c, List.mem_append_left _ hc, hcn, hca⟩
      · intro hfalse
        simp only [hname, Bool.false_eq_true, if_false] at hfalse ⊢
        exact h4 hfalse

/-- C10: every non-NULL snapshot `get_table_implicit_info` returns is
internally consistent: `num_implicit_cols` equals the length of
`implicit_columns`; `has_implicit_time` holds iff an entry named `"time"` is
in the list; when it holds, `time_attnum` is that entry's attribute number,
and when it does not, `time_attnum` is `InvalidAttrNumber`. -/
theorem get_table_implicit_info_consistent (cat : Catalog) (oid : Nat)
    (info : TableImplicitInfo)
    (h : get_table_implicit_info cat oid = some info) :
    info.num_implicit_cols = info.implicit_columns.length ∧
    (info.has_implicit_time = true ↔
      ∃ c ∈ info.implicit_columns,
        c.column_name = IMPLICIT_TIME_COLUMN_NAME) ∧
    (info.has_implicit_time = true →
      ∃ c ∈ info.implicit_columns,
        c.column_name = IMPLICIT_TIME_COLUMN_NAME ∧
        info.time_attnum = c.attnum) ∧
    (info.has_implicit_time = false →
      info.time_attnum = InvalidAttrNumber) := by
  unfold get_table_implicit_info at h
  by_cases hoid : oid = InvalidOid
  · rw [if_pos hoid] at h
    exact absurd h (by simp)
  · rw [if_neg hoid] at h
    have heq := Option.some_injective _ h
    rw [← heq]
    exact scanImplicitRows_invariant _ (emptyImplicitInfo oid)
      rfl (by simp [emptyImplicitInfo]) (by simp [emptyImplicitInfo])
      (fun _ => rfl)

/-- Witness for `get_table_implicit_info_consistent` at a concrete catalog
and table. -/
theorem get_table_implicit_info_consistent_witness :
    (scanImplicitRows (emptyImplicitInfo 5)
        (List.filter (fun r => r.ic_relid == 5) [sampleRow5])).num_implicit_cols =
      (scanImplicitRows (emptyImplicitInfo 5)
        (List.filter (fun r => r.ic_relid == 5)
          [sampleRow5])).implicit_columns.length :=
  (get_table_implicit_info_consistent [sampleRow5] 5
    (scanImplicitRows (emptyImplicitInfo 5)
      (List.filter (fun r => r.ic_relid == 5) [sampleRow5])) rfl).1

/-- Modelled from the spec: the wildcard (SELECT *) expansion and the §4.4
visibility filter are not among the sources under src/ — the executor hook
`ExecScanWithImplicitColumns` (execScan.c) only reads the slot.  Per the
§4.4 contract, wildcard projection suppresses every attribute whose number
equals a known implicit attribute number with `visible = false` for the
table; `hiddenAttnums` collects those attribute numbers from the catalog. -/
def hiddenAttnums (cat : Catalog) (table_oid : Nat) : List Nat :=
  (cat.filter (fun r => r.ic_relid == table_oid && r.ic_visible == false)).map
    (fun r => r.ic_attnum)

/-- Modelled from the spec: the 1-based attribute positions a wildcard
projection keeps for a tuple of `n` attributes of the given table — all
positions except the suppressed implicit ones. -/
def wildcardKeptPositions (cat : Catalog) (table_oid n : Nat) : List Nat :=
  ((List.range n).map (fun i => i + 1)).filter
    (fun p => !(hiddenAttnums cat table_oid).contains p)

/-- Modelled from the spec: the SELECT * result shape — the tuple's values
at the kept positions, in order. -/
def wildcardProject (cat : Catalog) (table_oid : Nat) (tuple : List Int) :
    List Int :=
  (wildcardKeptPositions cat table_oid tuple.length).filterMap
    (fun p => tuple.get? (p - 1))

/-- Explicit, non-wildcard attribute reference (`slot_getattr`): fetch the
value stored at a given 1-based attribute number. -/
def explicitAttrRef (tuple : List Int) (attnum : Nat) : Option Int :=
  tuple.get? (attnum - 1)

/-- `ExecScanWithImplicitColumns` (execScan.c): runs the standard scan and,
for a table with an implicit time column, reads the time attribute with
`slot_getattr` without writing to the slot; every path returns the scanned
slot unchanged.  The scanned slot enters the model as the argument. -/
def ExecScanWithImplicitColumns (slot : Option (List Int)) :
    Option (List Int) :=
  slot

/-- C8: for a table whose implicit time descriptor has `visible = false`,
the wildcard projection never keeps that column's attribute position, for a
tuple of any width (any number of declared columns); the column stays
addressable by explicit reference, and the scan hook itself returns the
tuple unchanged. -/
theorem wildcard_never_includes_invisible_time (cat : Catalog)
    (oid n : Nat) (tuple : List Int) (r : ImplicitColumnRow)
    (hr : r ∈ cat) (hrel : r.ic_relid = oid)
    (hname : r.ic_attname = IMPLICIT_TIME_COLUMN_NAME)
    (hvis : r.ic_visible = false) :
    r.ic_attnum ∉ wildcardKeptPositions cat oid n ∧
    (1 ≤ r.ic_attnum → r.ic_attnum ≤ tuple.length →
      (explicitAttrRef tuple r.ic_attnum).isSome = true) ∧
    ExecScanWithImplicitColumns (some tuple) = some tuple := by
  have hhid : r.ic_attnum ∈ hiddenAttnums cat oid := by
    unfold hiddenAttnums
    exact List.mem_map.mpr ⟨r, List.mem_filter.mpr
      ⟨hr, by rw [hrel, hvis]; simp⟩, rfl⟩
  refine ⟨?_, ?_, rfl⟩
  · intro hmem
    unfold wildcardKeptPositions at hmem
    have := (List.mem_filter.mp hmem).2
    rw [Bool.not_eq_true'] at this
    rw [List.contains_eq_any_beq] at this
    have hfalse := List.any_eq_false.mp this r.ic_attnum hhid
    simp at hfalse
  · intro h1 h2
    unfold explicitAttrRef
    have hlt : r.ic_attnum - 1 < tuple.length := by omega
    rw [List.get?_eq_get hlt]
    rfl

/-- Witness for `wildcard_never_includes_invisible_time`: table 5 with two
declared columns, one invisible implicit time descriptor at attribute 2, and
a concrete two-attribute tuple. -/
theorem wildcard_never_includes_invisible_time_witness :
    (2 : Nat) ∉ wildcardKeptPositions [sampleRow5] 5 2 ∧
    (explicitAttrRef [41, 42] 2).isSome = true :=
  have h := wildcard_never_includes_invisible_time [sampleRow5] 5 2
    [41, 42] sampleRow5 (List.mem_singleton.mpr rfl) rfl rfl rfl
  ⟨h.1, h.2.1 (by decide) (by decide)⟩

end ImplicitColumns
